import Mathlib

/-!
Shallow embedding of `art/attacks/iterative_method.py` (class `BasicIterativeMethod`).

Samples are modelled abstractly: a sample is a value of a type `α` with addition and
subtraction (a numpy tensor).  A batch is a `List α`.  Classifier scores for one sample
are a `List ℚ` (one score per class); a batch of targets is a `List (List ℚ)` of one-hot
rows.  The external collaborators (the classifier's `predict`, the single-step
perturbation `_compute` inherited from `FastGradientMethod`, and `art.utils.projection`)
are parameters of the embedding, gathered in the `Collab` structure; per the classifier
and perturber batch contracts, batch application is elementwise.
-/

deriving instance DecidableEq for Except

namespace ART

/-- Order of the norm: `np.inf`, 1 or 2. -/
inductive NormOrd where
  | inf : NormOrd
  | one : NormOrd
  | two : NormOrd
deriving DecidableEq

/-- The attack's stored configuration after construction / reconfiguration
(`norm`, `eps`, `eps_step`, `max_iter`, `targeted`, `random_init`). -/
structure Config where
  norm : NormOrd
  eps : ℚ
  eps_step : ℚ
  max_iter : ℤ
  targeted : Bool
  random_init : Bool
deriving DecidableEq

/-- The keyword-argument overrides a caller may pass to `generate` / `set_params`.
`y` is the optional label batch; it is consumed by `generate` itself, not stored. -/
structure Kwargs where
  norm : Option NormOrd := none
  eps : Option ℚ := none
  eps_step : Option ℚ := none
  max_iter : Option ℤ := none
  targeted : Option Bool := none
  random_init : Option Bool := none
  y : Option (List (List ℚ)) := none

/-- The external collaborators: the classifier's per-sample `predict`, the
single-step perturber `_compute` (taking `eps_step`, `random_init`, a sample and its
one-hot target row), and the per-sample norm-ball projection from `art.utils`. -/
structure Collab (α : Type) where
  predict : α → List ℚ
  compute : ℚ → Bool → α → List ℚ → α
  proj : α → ℚ → NormOrd → α

/-- Python's `int()` on a rational: truncation toward zero. -/
def pyInt (q : ℚ) : ℤ :=
  q.num.tdiv q.den

/-- Fuel for `range(self.max_iter)`. -/
def pyNat (m : ℤ) : ℕ :=
  m.toNat

def epsStepMsg : String :=
  "The iteration step `eps_step` has to be smaller than the total attack `eps`."

def maxIterMsg : String :=
  "The number of iterations `max_iter` has to be a positive integer."

def targetsMsg : String :=
  "Target labels `y` need to be provided for a targeted attack."

/-- `BasicIterativeMethod.__init__`: rejects `eps_step > eps`, then `max_iter <= 0`,
and stores `int(max_iter)`. -/
def bimInit (norm : NormOrd) (eps eps_step : ℚ) (max_iter : ℚ)
    (targeted random_init : Bool) : Except String Config :=
  if eps_step > eps then .error epsStepMsg
  else if max_iter ≤ 0 then .error maxIterMsg
  else .ok { norm := norm, eps := eps, eps_step := eps_step,
             max_iter := pyInt max_iter, targeted := targeted,
             random_init := random_init }

/-- Modelled from the spec: the base single-step attack's `set_params` (not part of
this repository slice) stores each caller-supplied attack parameter onto the instance,
overriding the previous value; parameters not supplied keep their stored values.
The label argument `y` is not an attack parameter and is not stored. -/
def applyKwargs (c : Config) (k : Kwargs) : Config :=
  { norm := k.norm.getD c.norm
    eps := k.eps.getD c.eps
    eps_step := k.eps_step.getD c.eps_step
    max_iter := k.max_iter.getD c.max_iter
    targeted := k.targeted.getD c.targeted
    random_init := k.random_init.getD c.random_init }

/-- `BasicIterativeMethod.set_params`: apply the overrides, then re-run the two
attack-specific checks on the stored values (`eps_step > eps`, `max_iter <= 0`). -/
def setParams (c : Config) (k : Kwargs) : Except String Config :=
  let c' := applyKwargs c k
  if c'.eps_step > c'.eps then .error epsStepMsg
  else if c'.max_iter ≤ 0 then .error maxIterMsg
  else .ok c'

/-- Helper for `argmax`: current index, best index so far, best value so far. -/
def argmaxGo : ℕ → ℕ → ℚ → List ℚ → ℕ
  | _, bi, _, [] => bi
  | i, bi, bv, v :: rest =>
      if bv < v then argmaxGo (i + 1) i v rest else argmaxGo (i + 1) bi bv rest

/-- `np.argmax` on one score row: index of the first maximal entry (0 on `[]`). -/
def argmax : List ℚ → ℕ
  | [] => 0
  | v :: rest => argmaxGo 1 0 v rest

/-- Modelled from the spec: `art.utils.get_labels_np_array` (not part of this
repository slice) one-hot encodes the arg-max of each score row. -/
def oneHotRow (scores : List ℚ) : List ℚ :=
  (List.range scores.length).map (fun j => if j = argmax scores then (1 : ℚ) else 0)

/-- Target-label resolution (`generate`, the `y` branch): if no labels are supplied,
a targeted attack is an error, otherwise the classifier is queried once on the full
original batch and its arg-max predictions are one-hot encoded; supplied labels are
used verbatim.  The second component logs the batches sent to the classifier during
this phase. -/
def resolveTargets {α : Type} (predict : α → List ℚ) (targeted : Bool)
    (x : List α) (y : Option (List (List ℚ))) :
    Except String (List (List ℚ) × List (List α)) :=
  match y with
  | none =>
      if targeted then .error targetsMsg
      else .ok ((x.map predict).map oneHotRow, [x])
  | some t => .ok (t, [])

/-- Numpy fancy-indexing read `arr[idxs]`. -/
def gather {α : Type} [Inhabited α] (arr : List α) (idxs : List ℕ) : List α :=
  idxs.map (fun i => arr.getD i default)

/-- Numpy fancy-indexing write `arr[idxs] = vals`. -/
def scatter {α : Type} : List α → List ℕ → List α → List α
  | arr, [], _ => arr
  | arr, _ :: _, [] => arr
  | arr, i :: is, v :: vs => scatter (arr.set i v) is vs

/-- Batchwise application of the single-step perturber `_compute`. -/
def computeBatch {α : Type} (C : Collab α) (eps_step : ℚ) (random_init : Bool)
    (batch : List α) (targets : List (List ℚ)) : List α :=
  (batch.zip targets).map (fun p => C.compute eps_step random_init p.1 p.2)

/-- One iteration of the loop body of `generate` (lines 99-108): perturb the active
sub-batch, project the accumulated noise relative to the original input, re-anchor,
query the classifier, and keep active exactly the indices whose fixed target label
differs from the new arg-max prediction. -/
def bimStep {α : Type} [Inhabited α] [Add α] [Sub α] (C : Collab α) (cfg : Config)
    (x : List α) (targets : List (List ℚ)) (tlabels : List ℕ)
    (adv : List α) (active : List ℕ) : List α × List ℕ :=
  let pert := computeBatch C cfg.eps_step cfg.random_init
      (gather adv active) (gather targets active)
  let adv1 := scatter adv active pert
  let noise := ((gather adv1 active).zip (gather x active)).map
      (fun p => C.proj (p.1 - p.2) cfg.eps cfg.norm)
  let adv2 := scatter adv1 active
      (((gather x active).zip noise).map (fun p => p.1 + p.2))
  let preds := (gather adv2 active).map C.predict
  let active' := ((active.zip preds).filter
      (fun p => tlabels.getD p.1 0 ≠ argmax p.2)).map Prod.fst
  (adv2, active')

/-- The `for _ in range(self.max_iter)` loop with the early break when the active
index list becomes empty; returns the final batch and the final active list. -/
def bimLoop {α : Type} [Inhabited α] [Add α] [Sub α] (C : Collab α) (cfg : Config)
    (x : List α) (targets : List (List ℚ)) (tlabels : List ℕ) :
    ℕ → List α → List ℕ → List α × List ℕ
  | 0, adv, active => (adv, active)
  | fuel + 1, adv, active =>
      let s := bimStep C cfg x targets tlabels adv active
      if s.2.length = 0 then s
      else bimLoop C cfg x targets tlabels fuel s.1 s.2

/-- The same loop, exposing the state after every executed iteration. -/
def bimLoopTrace {α : Type} [Inhabited α] [Add α] [Sub α] (C : Collab α) (cfg : Config)
    (x : List α) (targets : List (List ℚ)) (tlabels : List ℕ) :
    ℕ → List α → List ℕ → List (List α × List ℕ)
  | 0, _, _ => []
  | fuel + 1, adv, active =>
      let s := bimStep C cfg x targets tlabels adv active
      if s.2.length = 0 then [s]
      else s :: bimLoopTrace C cfg x targets tlabels fuel s.1 s.2

/-- `BasicIterativeMethod.generate`: reconfigure via `set_params`, copy the input,
resolve targets, take per-sample arg-max target labels, and run the loop starting
from the copy with all indices active.  Returns the final batch together with the
final active index list. -/
def generateRun {α : Type} [Inhabited α] [Add α] [Sub α] (C : Collab α) (cfg : Config)
    (kw : Kwargs) (x : List α) : Except String (List α × List ℕ) :=
  match setParams cfg kw with
  | .error e => .error e
  | .ok cfg' =>
      match resolveTargets C.predict cfg'.targeted x kw.y with
      | .error e => .error e
      | .ok (targets, _) =>
          let tlabels := targets.map argmax
          .ok (bimLoop C cfg' x targets tlabels (pyNat cfg'.max_iter) x
                (List.range x.length))

/-- The value `generate` actually returns: the adversarial batch. -/
def generate {α : Type} [Inhabited α] [Add α] [Sub α] (C : Collab α) (cfg : Config)
    (kw : Kwargs) (x : List α) : Except String (List α) :=
  (generateRun C cfg kw x).map Prod.fst

/-- The per-iteration trace of the loop inside `generate`. -/
def generateTrace {α : Type} [Inhabited α] [Add α] [Sub α] (C : Collab α) (cfg : Config)
    (kw : Kwargs) (x : List α) : Except String (List (List α × List ℕ)) :=
  match setParams cfg kw with
  | .error e => .error e
  | .ok cfg' =>
      match resolveTargets C.predict cfg'.targeted x kw.y with
      | .error e => .error e
      | .ok (targets, _) =>
          let tlabels := targets.map argmax
          .ok (bimLoopTrace C cfg' x targets tlabels (pyNat cfg'.max_iter) x
                (List.range x.length))

/-!
Reference-level embedding for the aliasing/mutation contract.  A store is a list of
numpy arrays; a reference is an index into the store.  `generate` receives a
reference to the caller's array `x`, allocates a fresh array for `adv_x = x.copy()`,
and every in-place write of the loop targets that fresh reference.
-/

/-- Read the array held by reference `r`. -/
def hread {α : Type} (st : List (List α)) (r : ℕ) : List α :=
  st.getD r []

/-- Overwrite the array held by reference `r`. -/
def hwrite {α : Type} (st : List (List α)) (r : ℕ) (v : List α) : List (List α) :=
  st.set r v

/-- Allocate a fresh array holding `v`; returns the new store and the new reference. -/
def halloc {α : Type} (st : List (List α)) (v : List α) : List (List α) × ℕ :=
  (st ++ [v], st.length)

/-- The loop of `generate` at the store level: each iteration reads `x` and `adv_x`
from their references, runs the iteration body, and writes the result back to the
`adv_x` reference. -/
def bimLoopRef {α : Type} [Inhabited α] [Add α] [Sub α] (C : Collab α) (cfg : Config)
    (targets : List (List ℚ)) (tlabels : List ℕ) (xr ar : ℕ) :
    ℕ → List (List α) → List ℕ → List (List α) × List ℕ
  | 0, st, active => (st, active)
  | fuel + 1, st, active =>
      let s := bimStep C cfg (hread st xr) targets tlabels (hread st ar) active
      let st' := hwrite st ar s.1
      if s.2.length = 0 then (st', s.2)
      else bimLoopRef C cfg targets tlabels xr ar fuel st' s.2

/-- `generate` at the store level: reconfigure, allocate `adv_x = x.copy()` as a fresh
reference, resolve targets from the caller's array, run the loop writing only to the
fresh reference, and return the final store with the reference to the result. -/
def generateRef {α : Type} [Inhabited α] [Add α] [Sub α] (C : Collab α) (cfg : Config)
    (kw : Kwargs) (st : List (List α)) (xr : ℕ) :
    Except String (List (List α) × ℕ) :=
  match setParams cfg kw with
  | .error e => .error e
  | .ok cfg' =>
      let x := hread st xr
      let a := halloc st x
      match resolveTargets C.predict cfg'.targeted x kw.y with
      | .error e => .error e
      | .ok (targets, _) =>
          let tlabels := targets.map argmax
          .ok ((bimLoopRef C cfg' targets tlabels xr a.2 (pyNat cfg'.max_iter) a.1
                 (List.range x.length)).1, a.2)

/-!
Concrete collaborators and configurations used to evaluate the development on
closed inputs.
-/

/-- A collaborator over integer samples whose classifier always answers the fixed
score row `row`, whose perturber adds 1 to the sample, and whose projection clamps
an integer to the interval `[-3, 3]` (so with a budget of 3 it always lands inside
the ball). -/
def constCollab (row : List ℚ) : Collab ℤ :=
  { predict := fun _ => row
    compute := fun _ _ s _ => s + 1
    proj := fun v _ _ => if v ≤ -3 then -3 else if 3 ≤ v then 3 else v }

/-- A small valid configuration used by the closed evaluations. -/
def cfgA : Config :=
  { norm := .inf, eps := 3, eps_step := 1, max_iter := 2,
    targeted := false, random_init := false }

/-- The empty override set (a bare call to `generate(x)`). -/
def noKw : Kwargs := {}

/-- Abbreviation for a configuration record. -/
def mkConfig (n : NormOrd) (e es : ℚ) (m : ℤ) (t r : Bool) : Config :=
  { norm := n, eps := e, eps_step := es, max_iter := m, targeted := t,
    random_init := r }

/-! ### List-level lemmas -/

theorem getD_set_ne {α : Type} (l : List α) (i j : ℕ) (v d : α) (h : i ≠ j) :
    (l.set i v).getD j d = l.getD j d := by
  induction l generalizing i j with
  | nil => simp
  | cons a l ih =>
      cases i with
      | zero =>
          cases j with
          | zero => exact absurd rfl h
          | succ j => simp
      | succ i =>
          cases j with
          | zero => simp
          | succ j => simpa using ih i j (fun hc => h (by simp [hc]))

theorem getD_set_self {α : Type} (l : List α) (i : ℕ) (v d : α) (h : i < l.length) :
    (l.set i v).getD i d = v := by
  induction l generalizing i with
  | nil => simp at h
  | cons a l ih =>
      cases i with
      | zero => simp
      | succ i => simpa using ih i (by simpa using h)

theorem getD_append_left {α : Type} (l₁ l₂ : List α) (i : ℕ) (d : α)
    (h : i < l₁.length) : (l₁ ++ l₂).getD i d = l₁.getD i d := by
  induction l₁ generalizing i with
  | nil => simp at h
  | cons a l ih =>
      cases i with
      | zero => simp
      | succ i => simpa using ih i (by simpa using h)

theorem scatter_length {α : Type} (arr : List α) (is vs : List _) :
    (scatter arr is vs : List α).length = arr.length := by
  induction is generalizing arr vs with
  | nil => simp [scatter]
  | cons i is ih =>
      cases vs with
      | nil => simp [scatter]
      | cons v vs => simpa [scatter] using (ih (arr.set i v) vs).trans (by simp)

theorem scatter_getD_of_not_mem {α : Type} (arr : List α) (is : List ℕ) (vs : List α)
    (i : ℕ) (d : α) (h : i ∉ is) : (scatter arr is vs).getD i d = arr.getD i d := by
  induction is generalizing arr vs with
  | nil => simp [scatter]
  | cons j is ih =>
      cases vs with
      | nil => simp [scatter]
      | cons v vs =>
          have hj : j ≠ i := fun hc => h (by simp [hc])
          have hm : i ∉ is := fun hc => h (by simp [hc])
          simp only [scatter]
          rw [ih (arr.set j v) vs hm, getD_set_ne _ _ _ _ _ hj]

theorem scatter_map_getD {α : Type} (arr : List α) (is : List ℕ) (g : ℕ → α)
    (h1 : is.Nodup) (h2 : ∀ j ∈ is, j < arr.length) (i : ℕ) (d : α) :
    (scatter arr is (is.map g)).getD i d = if i ∈ is then g i else arr.getD i d := by
  induction is generalizing arr with
  | nil => simp [scatter]
  | cons j is ih =>
      have hj : j < arr.length := h2 j (by simp)
      have h1' : is.Nodup := h1.of_cons
      have hjis : j ∉ is := by
        intro hc
        exact (List.nodup_cons.mp h1).1 hc
      simp only [List.map, scatter]
      by_cases hij : i = j
      · subst hij
        rw [scatter_getD_of_not_mem _ _ _ _ _ hjis, getD_set_self _ _ _ _ hj]
        simp
      · rw [ih (arr.set j (g j)) h1' (fun k hk => by simpa using h2 k (by simp [hk]))]
        by_cases hmem : i ∈ is
        · rw [if_pos hmem, if_pos (by simp [hmem])]
        · rw [if_neg hmem, if_neg (by simp [hij, hmem]),
            getD_set_ne _ _ _ _ _ (fun hc => hij hc.symm)]

theorem zip_self_map {α β : Type} (l : List α) (g : α → β) :
    l.zip (l.map g) = l.map (fun i => (i, g i)) := by
  have h := List.zip_map' id g l
  simpa using h

theorem select_filter {α β : Type} (l : List α) (g : α → β) (p : α × β → Bool) :
    ((l.map (fun i => (i, g i))).filter p).map Prod.fst
      = l.filter (fun i => p (i, g i)) := by
  rw [List.filter_map, List.map_map]
  exact List.map_id _

theorem zip_filter_fst_sublist {α β : Type} (l : List α) (r : List β)
    (p : α × β → Bool) : ((((l.zip r).filter p).map Prod.fst)).Sublist l := by
  induction l generalizing r with
  | nil => simp
  | cons a l ih =>
      cases r with
      | nil => simp
      | cons b r =>
          simp only [List.zip_cons_cons, List.filter]
          cases p (a, b) with
          | true => simpa using List.Sublist.cons₂ a (ih r)
          | false => simpa using List.Sublist.cons a (ih r)

/-! ### Lemmas about one loop iteration -/

theorem bimStep_fst_length {α : Type} [Inhabited α] [Add α] [Sub α]
    (C : Collab α) (cfg : Config) (x : List α) (targets : List (List ℚ))
    (tlabels : List ℕ) (adv : List α) (active : List ℕ) :
    (bimStep C cfg x targets tlabels adv active).1.length = adv.length := by
  simp only [bimStep]
  rw [scatter_length, scatter_length]

theorem bimStep_fst_getD_of_not_mem {α : Type} [Inhabited α] [Add α] [Sub α]
    (C : Collab α) (cfg : Config) (x : List α) (targets : List (List ℚ))
    (tlabels : List ℕ) (adv : List α) (active : List ℕ) (i : ℕ) (d : α)
    (h : i ∉ active) :
    (bimStep C cfg x targets tlabels adv active).1.getD i d = adv.getD i d := by
  simp only [bimStep]
  rw [scatter_getD_of_not_mem _ _ _ _ _ h, scatter_getD_of_not_mem _ _ _ _ _ h]

theorem bimStep_snd_sublist {α : Type} [Inhabited α] [Add α] [Sub α]
    (C : Collab α) (cfg : Config) (x : List α) (targets : List (List ℚ))
    (tlabels : List ℕ) (adv : List α) (active : List ℕ) :
    ((bimStep C cfg x targets tlabels adv active).2).Sublist active := by
  simp only [bimStep]
  exact zip_filter_fst_sublist _ _ _

theorem bimStep_snd_eq {α : Type} [Inhabited α] [Add α] [Sub α]
    (C : Collab α) (cfg : Config) (x : List α) (targets : List (List ℚ))
    (tlabels : List ℕ) (adv : List α) (active : List ℕ) :
    (bimStep C cfg x targets tlabels adv active).2
      = active.filter (fun i => tlabels.getD i 0 ≠
          argmax (C.predict
            ((bimStep C cfg x targets tlabels adv active).1.getD i default))) := by
  simp only [bimStep, gather]
  rw [List.map_map, zip_self_map, select_filter]
  rfl

theorem bimStep_fst_getD_of_mem {α : Type} [Inhabited α] [Add α] [Sub α]
    (C : Collab α) (cfg : Config) (x : List α) (targets : List (List ℚ))
    (tlabels : List ℕ) (adv : List α) (active : List ℕ)
    (h1 : active.Nodup) (h2 : ∀ j ∈ active, j < adv.length) (i : ℕ) (hi : i ∈ active)
    (d : α) :
    (bimStep C cfg x targets tlabels adv active).1.getD i d
      = x.getD i default + C.proj
          (C.compute cfg.eps_step cfg.random_init (adv.getD i default)
              (targets.getD i default) - x.getD i default) cfg.eps cfg.norm := by
  simp only [bimStep]
  have e1 : computeBatch C cfg.eps_step cfg.random_init (gather adv active)
      (gather targets active)
      = active.map (fun j => C.compute cfg.eps_step cfg.random_init (adv.getD j default)
          (targets.getD j default)) := by
    simp only [computeBatch, gather, List.zip_map', List.map_map]
    rfl
  rw [e1]
  have e2 : gather (scatter adv active
        (active.map (fun j => C.compute cfg.eps_step cfg.random_init (adv.getD j default)
          (targets.getD j default)))) active
      = active.map (fun j => C.compute cfg.eps_step cfg.random_init (adv.getD j default)
          (targets.getD j default)) := by
    apply List.map_congr_left
    intro j hj
    rw [scatter_map_getD _ _ _ h1 h2 j default, if_pos hj]
  rw [e2]
  have e3 : ((active.map (fun j => C.compute cfg.eps_step cfg.random_init
          (adv.getD j default) (targets.getD j default))).zip (gather x active)).map
        (fun p => C.proj (p.1 - p.2) cfg.eps cfg.norm)
      = active.map (fun j => C.proj (C.compute cfg.eps_step cfg.random_init
          (adv.getD j default) (targets.getD j default) - x.getD j default)
          cfg.eps cfg.norm) := by
    simp only [gather, List.zip_map', List.map_map]
    rfl
  rw [e3]
  have e4 : ((gather x active).zip (active.map (fun j => C.proj
          (C.compute cfg.eps_step cfg.random_init (adv.getD j default)
            (targets.getD j default) - x.getD j default) cfg.eps cfg.norm))).map
        (fun p => p.1 + p.2)
      = active.map (fun j => x.getD j default + C.proj
          (C.compute cfg.eps_step cfg.random_init (adv.getD j default)
            (targets.getD j default) - x.getD j default) cfg.eps cfg.norm) := by
    simp only [gather, List.zip_map', List.map_map]
    rfl
  rw [e4]
  rw [scatter_map_getD _ _ _ h1
      (fun j hj => by rw [scatter_length]; exact h2 j hj), if_pos hi]

/-! ### Lemmas about the loop -/

theorem bimLoop_fst_length {α : Type} [Inhabited α] [Add α] [Sub α]
    (C : Collab α) (cfg : Config) (x : List α) (targets : List (List ℚ))
    (tlabels : List ℕ) (fuel : ℕ) (adv : List α) (active : List ℕ) :
    (bimLoop C cfg x targets tlabels fuel adv active).1.length = adv.length := by
  induction fuel generalizing adv active with
  | zero => rfl
  | succ fuel ih =>
      simp only [bimLoop]
      split
      · exact bimStep_fst_length C cfg x targets tlabels adv active
      · rw [ih]
        exact bimStep_fst_length C cfg x targets tlabels adv active

theorem bimLoop_frozen {α : Type} [Inhabited α] [Add α] [Sub α]
    (C : Collab α) (cfg : Config) (x : List α) (targets : List (List ℚ))
    (tlabels : List ℕ) (fuel : ℕ) (adv : List α) (active : List ℕ) (i : ℕ) (d : α)
    (h : i ∉ active) :
    (bimLoop C cfg x targets tlabels fuel adv active).1.getD i d = adv.getD i d
      ∧ i ∉ (bimLoop C cfg x targets tlabels fuel adv active).2 := by
  induction fuel generalizing adv active with
  | zero => exact ⟨rfl, h⟩
  | succ fuel ih =>
      have hs : i ∉ (bimStep C cfg x targets tlabels adv active).2 :=
        fun hc => h ((bimStep_snd_sublist C cfg x targets tlabels adv active).subset hc)
      have hv := bimStep_fst_getD_of_not_mem C cfg x targets tlabels adv active i d h
      simp only [bimLoop]
      split
      · exact ⟨hv, hs⟩
      · have := ih (bimStep C cfg x targets tlabels adv active).1
          (bimStep C cfg x targets tlabels adv active).2 hs
        exact ⟨this.1.trans hv, this.2⟩

theorem bimLoop_bound {α : Type} [Inhabited α] [AddCommGroup α]
    (C : Collab α) (cfg : Config) (x : List α) (targets : List (List ℚ))
    (tlabels : List ℕ) (nf : NormOrd → α → ℚ)
    (hproj : ∀ v, nf cfg.norm (C.proj v cfg.eps cfg.norm) ≤ cfg.eps)
    (fuel : ℕ) (adv : List α) (active : List ℕ)
    (hnd : active.Nodup) (hbd : ∀ j ∈ active, j < adv.length)
    (hlen : adv.length = x.length)
    (hinv : ∀ i, i < x.length → i ∉ active →
      nf cfg.norm (adv.getD i default - x.getD i default) ≤ cfg.eps) :
    ∀ i, i < x.length → i ∉ (bimLoop C cfg x targets tlabels fuel adv active).2 →
      nf cfg.norm ((bimLoop C cfg x targets tlabels fuel adv active).1.getD i default
        - x.getD i default) ≤ cfg.eps := by
  induction fuel generalizing adv active with
  | zero => exact hinv
  | succ fuel ih =>
      have hstep : ∀ i, i < x.length →
          i ∉ (bimStep C cfg x targets tlabels adv active).2 →
          nf cfg.norm ((bimStep C cfg x targets tlabels adv active).1.getD i default
            - x.getD i default) ≤ cfg.eps := by
        intro i hix hia
        by_cases hmem : i ∈ active
        · rw [bimStep_fst_getD_of_mem C cfg x targets tlabels adv active hnd hbd i hmem,
            add_sub_cancel_left]
          exact hproj _
        · rw [bimStep_fst_getD_of_not_mem C cfg x targets tlabels adv active i default
            hmem]
          exact hinv i hix hmem
      simp only [bimLoop]
      split
      · exact hstep
      · exact ih (bimStep C cfg x targets tlabels adv active).1
          (bimStep C cfg x targets tlabels adv active).2
          ((bimStep_snd_sublist C cfg x targets tlabels adv active).nodup hnd)
          (fun j hj => by
            rw [bimStep_fst_length]
            exact hbd j ((bimStep_snd_sublist C cfg x targets tlabels adv active).subset hj))
          (by rw [bimStep_fst_length]; exact hlen)
          hstep

theorem bimLoopTrace_length_le {α : Type} [Inhabited α] [Add α] [Sub α]
    (C : Collab α) (cfg : Config) (x : List α) (targets : List (List ℚ))
    (tlabels : List ℕ) (fuel : ℕ) (adv : List α) (active : List ℕ) :
    (bimLoopTrace C cfg x targets tlabels fuel adv active).length ≤ fuel := by
  induction fuel generalizing adv active with
  | zero => simp [bimLoopTrace]
  | succ fuel ih =>
      simp only [bimLoopTrace]
      split
      · simp
      · simpa using ih _ _

theorem bimLoopTrace_getD_zero_sublist {α : Type} [Inhabited α] [Add α] [Sub α]
    (C : Collab α) (cfg : Config) (x : List α) (targets : List (List ℚ))
    (tlabels : List ℕ) (fuel : ℕ) (adv : List α) (active : List ℕ)
    (dflt : List α × List ℕ)
    (h : 0 < (bimLoopTrace C cfg x targets tlabels fuel adv active).length) :
    (((bimLoopTrace C cfg x targets tlabels fuel adv active).getD 0 dflt).2).Sublist
      active := by
  cases fuel with
  | zero => simp [bimLoopTrace] at h
  | succ fuel =>
      simp only [bimLoopTrace]
      split
      · simpa using bimStep_snd_sublist C cfg x targets tlabels adv active
      · simpa using bimStep_snd_sublist C cfg x targets tlabels adv active

theorem bimLoopTrace_chain_sublist {α : Type} [Inhabited α] [Add α] [Sub α]
    (C : Collab α) (cfg : Config) (x : List α) (targets : List (List ℚ))
    (tlabels : List ℕ) (fuel : ℕ) (adv : List α) (active : List ℕ)
    (dflt : List α × List ℕ) (k : ℕ)
    (h : k + 1 < (bimLoopTrace C cfg x targets tlabels fuel adv active).length) :
    (((bimLoopTrace C cfg x targets tlabels fuel adv active).getD (k + 1) dflt).2).Sublist
      (((bimLoopTrace C cfg x targets tlabels fuel adv active).getD k dflt).2) := by
  induction fuel generalizing adv active k with
  | zero => simp [bimLoopTrace] at h
  | succ fuel ih =>
      simp only [bimLoopTrace] at h ⊢
      by_cases hc : (bimStep C cfg x targets tlabels adv active).2.length = 0
      · rw [if_pos hc] at h
        simp at h
      · rw [if_neg hc] at h ⊢
        cases k with
        | zero =>
            simp only [List.getD_cons_succ, List.getD_cons_zero]
            simp only [List.length_cons, Nat.add_lt_add_iff_right] at h
            exact bimLoopTrace_getD_zero_sublist C cfg x targets tlabels fuel _ _ dflt h
        | succ k =>
            simp only [List.getD_cons_succ]
            simp only [List.length_cons, Nat.add_lt_add_iff_right] at h
            exact ih _ _ k h

theorem bimLoopTrace_ne_nil {α : Type} [Inhabited α] [Add α] [Sub α]
    (C : Collab α) (cfg : Config) (x : List α) (targets : List (List ℚ))
    (tlabels : List ℕ) (fuel : ℕ) (adv : List α) (active : List ℕ)
    (dflt : List α × List ℕ) (k : ℕ)
    (h : k + 1 < (bimLoopTrace C cfg x targets tlabels fuel adv active).length) :
    ((bimLoopTrace C cfg x targets tlabels fuel adv active).getD k dflt).2 ≠ [] := by
  induction fuel generalizing adv active k with
  | zero => simp [bimLoopTrace] at h
  | succ fuel ih =>
      simp only [bimLoopTrace] at h ⊢
      by_cases hne : (bimStep C cfg x targets tlabels adv active).2.length = 0
      · rw [if_pos hne] at h
        simp at h
      · rw [if_neg hne] at h ⊢
        cases k with
        | zero =>
            simp only [List.getD_cons_zero]
            exact fun hc => hne (by rw [hc]; rfl)
        | succ k =>
            simp only [List.getD_cons_succ]
            simp only [List.length_cons, Nat.add_lt_add_iff_right] at h
            exact ih _ _ k h

/-! ### Lemmas about configuration and `generate` plumbing -/

theorem setParams_ok_eq (cfg cfg' : Config) (kw : Kwargs)
    (h : setParams cfg kw = .ok cfg') : cfg' = applyKwargs cfg kw := by
  simp only [setParams] at h
  split at h
  · exact absurd h (by simp)
  · split at h
    · exact absurd h (by simp)
    · cases h
      rfl

theorem applyKwargs_noKw (cfg : Config) : applyKwargs cfg noKw = cfg := rfl

theorem generateRun_eq {α : Type} [Inhabited α] [Add α] [Sub α]
    (C : Collab α) (cfg cfg' : Config) (kw : Kwargs) (x : List α)
    (targets : List (List ℚ)) (log : List (List α))
    (hsp : setParams cfg kw = .ok cfg')
    (hrt : resolveTargets C.predict cfg'.targeted x kw.y = .ok (targets, log)) :
    generateRun C cfg kw x
      = .ok (bimLoop C cfg' x targets (targets.map argmax) (pyNat cfg'.max_iter) x
          (List.range x.length)) := by
  simp only [generateRun, hsp, hrt]

theorem generateTrace_eq {α : Type} [Inhabited α] [Add α] [Sub α]
    (C : Collab α) (cfg cfg' : Config) (kw : Kwargs) (x : List α)
    (targets : List (List ℚ)) (log : List (List α))
    (hsp : setParams cfg kw = .ok cfg')
    (hrt : resolveTargets C.predict cfg'.targeted x kw.y = .ok (targets, log)) :
    generateTrace C cfg kw x
      = .ok (bimLoopTrace C cfg' x targets (targets.map argmax) (pyNat cfg'.max_iter) x
          (List.range x.length)) := by
  simp only [generateTrace, hsp, hrt]

theorem pyInt_eq_zero_of_lt_one (q : ℚ) (h0 : 0 < q) (h1 : q < 1) : pyInt q = 0 := by
  have hd : (0:ℚ) < (q.den : ℚ) := by exact_mod_cast q.den_pos
  have hnum : (q.num : ℚ) < (q.den : ℚ) := by
    rw [← Rat.num_div_den q] at h1
    exact (div_lt_one hd).mp h1
  have hn : (0:ℤ) ≤ q.num := le_of_lt (Rat.num_pos.mpr h0)
  have hlt : q.num < (q.den : ℤ) := by exact_mod_cast hnum
  unfold pyInt
  rw [Int.tdiv_eq_ediv hn (by positivity)]
  exact Int.ediv_eq_zero_of_lt hn hlt

/-! ### Lemmas about the store-level embedding -/

theorem bimLoopRef_hread_other {α : Type} [Inhabited α] [Add α] [Sub α]
    (C : Collab α) (cfg : Config) (targets : List (List ℚ)) (tlabels : List ℕ)
    (xr ar : ℕ) (h : ar ≠ xr) (fuel : ℕ) (st : List (List α)) (active : List ℕ) :
    hread (bimLoopRef C cfg targets tlabels xr ar fuel st active).1 xr
      = hread st xr := by
  induction fuel generalizing st active with
  | zero => rfl
  | succ fuel ih =>
      simp only [bimLoopRef]
      split
      · exact getD_set_ne st ar xr _ _ h
      · exact (ih _ _).trans (getD_set_ne st ar xr _ _ h)

/-! ### Claim theorems -/

/-- Claim C1 counterexample: at the first iteration of a concrete `generate` run
(one sample, labels resolved from the classifier itself), the arg-max prediction on
the sample's current perturbed input still MATCHES the fixed target label, and yet
the index is removed from the active set — refuting "a sample index is removed ...
exactly when the arg-max prediction ... no longer matches ...; it remains active
exactly when the prediction still matches the target label". -/
theorem bim_C1_cex :
    0 ∈ List.range 1
    ∧ argmax ((constCollab [1, 0]).predict
        ((bimStep (constCollab [1, 0]) cfgA [(0:ℤ)] [[1, 0]] [0] [(0:ℤ)]
          (List.range 1)).1.getD 0 0))
      = [0].getD 0 0
    ∧ 0 ∉ (bimStep (constCollab [1, 0]) cfgA [(0:ℤ)] [[1, 0]] [0] [(0:ℤ)]
        (List.range 1)).2 := by
  decide

/-- Claim C1 (amended): for every iteration of the loop, a sample index remains in
the active index set exactly when the arg-max prediction of the classifier on that
sample's current perturbed input still DIFFERS from that sample's fixed target
label; it is removed exactly when the prediction has come to match the target
label. -/
theorem bim_C1 {α : Type} [Inhabited α] [Add α] [Sub α] (C : Collab α) (cfg : Config)
    (x : List α) (targets : List (List ℚ)) (tlabels : List ℕ)
    (adv : List α) (active : List ℕ) (i : ℕ) :
    i ∈ (bimStep C cfg x targets tlabels adv active).2
      ↔ i ∈ active ∧ tlabels.getD i 0 ≠ argmax (C.predict
          ((bimStep C cfg x targets tlabels adv active).1.getD i default)) := by
  rw [bimStep_snd_eq]
  simp [List.mem_filter]

/-- Claim C2: for every valid configuration (effective configuration `cfg'` after the
overrides), every sample index not in the active set when `generate` returns has its
perturbation `returned[i] - original[i]` within the configured budget under the
configured norm, assuming the projection primitive always returns a vector inside
the radius-`eps` ball. -/
theorem bim_C2 {α : Type} [Inhabited α] [AddCommGroup α] (C : Collab α)
    (cfg cfg' : Config) (kw : Kwargs) (x : List α) (nf : NormOrd → α → ℚ)
    (res : List α × List ℕ) (i : ℕ)
    (hsp : setParams cfg kw = .ok cfg')
    (hproj : ∀ v, nf cfg'.norm (C.proj v cfg'.eps cfg'.norm) ≤ cfg'.eps)
    (hrun : generateRun C cfg kw x = .ok res)
    (hi : i < x.length) (hni : i ∉ res.2) :
    nf cfg'.norm (res.1.getD i default - x.getD i default) ≤ cfg'.eps := by
  cases hres : resolveTargets C.predict cfg'.targeted x kw.y with
  | error e =>
      rw [generateRun, hsp] at hrun
      simp only [hres] at hrun
      exact absurd hrun (by simp)
  | ok p =>
      obtain ⟨targets, log⟩ := p
      rw [generateRun_eq C cfg cfg' kw x targets log hsp hres] at hrun
      have hr : res = bimLoop C cfg' x targets (targets.map argmax)
          (pyNat cfg'.max_iter) x (List.range x.length) := by
        cases hrun
        rfl
      subst hr
      exact bimLoop_bound C cfg' x targets (targets.map argmax) nf hproj
        (pyNat cfg'.max_iter) x (List.range x.length) (List.nodup_range _)
        (fun j hj => List.mem_range.mp hj) rfl
        (fun j hjx hj => absurd (List.mem_range.mpr hjx) hj) i hi hni

/-- Claim C2 witness: a concrete one-sample run with the interval-clamping
projection; the removed sample's perturbation is within the budget. -/
theorem bim_C2_wit :
    (0 ∉ ([] : List ℕ))
    ∧ ((|([(1:ℤ)], ([] : List ℕ)).1.getD 0 default
        - [(0:ℤ)].getD 0 default| : ℤ) : ℚ) ≤ cfgA.eps := by
  refine ⟨by decide, ?_⟩
  have hproj : ∀ v : ℤ, (fun (_ : NormOrd) (w : ℤ) => ((|w| : ℤ) : ℚ)) cfgA.norm
      ((constCollab [0, 1]).proj v cfgA.eps cfgA.norm) ≤ cfgA.eps := by
    intro v
    show ((|if v ≤ -3 then -3 else if 3 ≤ v then (3:ℤ) else v| : ℤ) : ℚ) ≤ 3
    have hb : |if v ≤ -3 then -3 else if 3 ≤ v then (3:ℤ) else v| ≤ 3 := by
      split_ifs with ha hb
      · simp
      · simp
      · rw [abs_le]
        exact ⟨by linarith [lt_of_not_le ha], by linarith [lt_of_not_le hb]⟩
    exact_mod_cast hb
  exact bim_C2 (constCollab [0, 1]) cfgA cfgA noKw [(0:ℤ)]
    (fun _ w => ((|w| : ℤ) : ℚ)) ([(1:ℤ)], []) 0 (by decide) hproj (by decide)
    (by decide) (by decide)

/-- Claim C3 counterexample: a concrete run (one sample, supplied labels) in which
the fixed target label DIFFERS from the arg-max prediction computed on the sample
after the first iteration's perturb-and-project step, and yet the loop executes a
second iteration (the trace has length 2, not 1) — refuting "the active set is
empty after iteration 0" and "the loop executes no further iterations". -/
theorem bim_C3_cex :
    [(0:ℤ)].length = 1
    ∧ ((([[(1:ℚ), 0]].map argmax).getD 0 0)
        ≠ argmax ((constCollab [0, 1]).predict
            ((bimStep (constCollab [0, 1]) cfgA [(0:ℤ)] [[(1:ℚ), 0]]
              ([[(1:ℚ), 0]].map argmax) [(0:ℤ)] (List.range 1)).1.getD 0 0)))
    ∧ (generateTrace (constCollab [0, 1]) cfgA { y := some [[(1:ℚ), 0]] }
        [(0:ℤ)]).map List.length = .ok 2 := by
  decide

/-- Claim C3 (amended): if, for every sample in the batch, the fixed target label
EQUALS the arg-max prediction computed on the samples after the first iteration's
perturb-and-project step, then the active set is empty after iteration 0, the loop
executes no further iterations, and the returned samples equal the
single-step-perturbed-and-projected values from iteration 0. -/
theorem bim_C3 {α : Type} [Inhabited α] [Add α] [Sub α] (C : Collab α)
    (cfg cfg' : Config) (kw : Kwargs) (x : List α)
    (targets : List (List ℚ)) (log : List (List α))
    (hsp : setParams cfg kw = .ok cfg')
    (hrt : resolveTargets C.predict cfg'.targeted x kw.y = .ok (targets, log))
    (hfuel : 0 < pyNat cfg'.max_iter)
    (hall : ∀ i ∈ List.range x.length, (targets.map argmax).getD i 0
      = argmax (C.predict ((bimStep C cfg' x targets (targets.map argmax) x
          (List.range x.length)).1.getD i default))) :
    generateRun C cfg kw x
      = .ok ((bimStep C cfg' x targets (targets.map argmax) x
          (List.range x.length)).1, [])
    ∧ generateTrace C cfg kw x
      = .ok [bimStep C cfg' x targets (targets.map argmax) x
          (List.range x.length)] := by
  have hs2 : (bimStep C cfg' x targets (targets.map argmax) x
      (List.range x.length)).2 = [] := by
    rw [bimStep_snd_eq]
    rw [List.filter_eq_nil_iff]
    intro a ha
    simp only [decide_eq_true_eq, ne_eq, not_not]
    exact hall a ha
  obtain ⟨m, hm⟩ : ∃ m, pyNat cfg'.max_iter = m + 1 :=
    ⟨pyNat cfg'.max_iter - 1, (Nat.succ_pred_eq_of_pos hfuel).symm⟩
  constructor
  · rw [generateRun_eq C cfg cfg' kw x targets log hsp hrt, hm]
    simp only [bimLoop]
    rw [if_pos (by rw [hs2]; rfl)]
    exact congrArg Except.ok (Prod.ext rfl hs2)
  · rw [generateTrace_eq C cfg cfg' kw x targets log hsp hrt, hm]
    simp only [bimLoopTrace]
    rw [if_pos (by rw [hs2]; rfl)]

/-- Claim C3 witness: a concrete one-sample run in which the (supplied) target label
equals the prediction after the first perturb-and-project step; the run stops after
iteration 0 and returns the single-step values. -/
theorem bim_C3_wit :
    generateRun (constCollab [1, 0]) cfgA { y := some [[(1:ℚ), 0]] } [(0:ℤ)]
      = .ok ((bimStep (constCollab [1, 0]) cfgA [(0:ℤ)] [[(1:ℚ), 0]]
          ([[(1:ℚ), 0]].map argmax) [(0:ℤ)] (List.range 1)).1, [])
    ∧ generateTrace (constCollab [1, 0]) cfgA { y := some [[(1:ℚ), 0]] } [(0:ℤ)]
      = .ok [bimStep (constCollab [1, 0]) cfgA [(0:ℤ)] [[(1:ℚ), 0]]
          ([[(1:ℚ), 0]].map argmax) [(0:ℤ)] (List.range 1)] :=
  bim_C3 (constCollab [1, 0]) cfgA cfgA { y := some [[(1:ℚ), 0]] } [(0:ℤ)]
    [[(1:ℚ), 0]] [] (by decide) (by decide) (by decide) (by decide)

/-- Claim C4: indices are only ever removed from the active set, never re-added —
each iteration's active list is a sublist of the previous one (so its size is
non-increasing), the loop executes at most `max_iter` iterations, and it breaks as
soon as the active set becomes empty (every iteration except possibly the last
starts from a non-empty active set). -/
theorem bim_C4 {α : Type} [Inhabited α] [Add α] [Sub α] (C : Collab α) (cfg : Config)
    (kw : Kwargs) (x : List α) (targets : List (List ℚ)) (tlabels : List ℕ)
    (fuel : ℕ) (adv : List α) (active : List ℕ) (dflt : List α × List ℕ) :
    (∀ (adv' : List α) (active' : List ℕ),
        ((bimStep C cfg x targets tlabels adv' active').2).Sublist active')
    ∧ (bimLoopTrace C cfg x targets tlabels fuel adv active).length ≤ fuel
    ∧ (∀ k, k + 1 < (bimLoopTrace C cfg x targets tlabels fuel adv active).length →
        (((bimLoopTrace C cfg x targets tlabels fuel adv active).getD (k + 1) dflt).2).Sublist
          (((bimLoopTrace C cfg x targets tlabels fuel adv active).getD k dflt).2))
    ∧ (∀ k, k + 1 < (bimLoopTrace C cfg x targets tlabels fuel adv active).length →
        ((bimLoopTrace C cfg x targets tlabels fuel adv active).getD k dflt).2 ≠ [])
    ∧ (∀ T, generateTrace C cfg kw x = .ok T →
        T.length ≤ pyNat ((applyKwargs cfg kw).max_iter)) := by
  refine ⟨fun adv' active' => bimStep_snd_sublist C cfg x targets tlabels adv' active',
    bimLoopTrace_length_le C cfg x targets tlabels fuel adv active,
    fun k hk => bimLoopTrace_chain_sublist C cfg x targets tlabels fuel adv active dflt k hk,
    fun k hk => bimLoopTrace_ne_nil C cfg x targets tlabels fuel adv active dflt k hk,
    ?_⟩
  intro T hT
  cases hsp : setParams cfg kw with
  | error e =>
      simp only [generateTrace, hsp] at hT
      exact absurd hT (by simp)
  | ok cfg' =>
      cases hres : resolveTargets C.predict cfg'.targeted x kw.y with
      | error e =>
          simp only [generateTrace, hsp, hres] at hT
          exact absurd hT (by simp)
      | ok p =>
          obtain ⟨t0, l0⟩ := p
          simp only [generateTrace, hsp, hres] at hT
          obtain rfl : bimLoopTrace C cfg' x t0 (t0.map argmax)
              (pyNat cfg'.max_iter) x (List.range x.length) = T := by
            simpa using hT
          rw [← setParams_ok_eq cfg cfg' kw hsp]
          exact bimLoopTrace_length_le C cfg' x t0 (t0.map argmax)
            (pyNat cfg'.max_iter) x (List.range x.length)

/-- Claim C4 witness: a concrete two-iteration run (a sample that never reaches its
supplied target) exercising the sublist chain, the length bound and the
non-emptiness of every non-final active set. -/
theorem bim_C4_wit :
    (∀ (adv' : List ℤ) (active' : List ℕ),
        ((bimStep (constCollab [0, 1]) cfgA [(0:ℤ)] [[(1:ℚ), 0]] [0] adv'
          active').2).Sublist active')
    ∧ (bimLoopTrace (constCollab [0, 1]) cfgA [(0:ℤ)] [[(1:ℚ), 0]] [0] 2 [(0:ℤ)]
        (List.range 1)).length ≤ 2
    ∧ (∀ k, k + 1 < (bimLoopTrace (constCollab [0, 1]) cfgA [(0:ℤ)] [[(1:ℚ), 0]] [0]
          2 [(0:ℤ)] (List.range 1)).length →
        (((bimLoopTrace (constCollab [0, 1]) cfgA [(0:ℤ)] [[(1:ℚ), 0]] [0] 2 [(0:ℤ)]
          (List.range 1)).getD (k + 1) ([], [])).2).Sublist
          (((bimLoopTrace (constCollab [0, 1]) cfgA [(0:ℤ)] [[(1:ℚ), 0]] [0] 2 [(0:ℤ)]
            (List.range 1)).getD k ([], [])).2))
    ∧ (∀ k, k + 1 < (bimLoopTrace (constCollab [0, 1]) cfgA [(0:ℤ)] [[(1:ℚ), 0]] [0]
          2 [(0:ℤ)] (List.range 1)).length →
        ((bimLoopTrace (constCollab [0, 1]) cfgA [(0:ℤ)] [[(1:ℚ), 0]] [0] 2 [(0:ℤ)]
          (List.range 1)).getD k ([], [])).2 ≠ [])
    ∧ (∀ T, generateTrace (constCollab [0, 1]) cfgA { y := some [[(1:ℚ), 0]] }
          [(0:ℤ)] = .ok T →
        T.length ≤ pyNat ((applyKwargs cfgA { y := some [[(1:ℚ), 0]] }).max_iter)) :=
  bim_C4 (constCollab [0, 1]) cfgA { y := some [[(1:ℚ), 0]] } [(0:ℤ)]
    [[(1:ℚ), 0]] [0] 2 [(0:ℤ)] (List.range 1) ([], [])

/-- Claim C5: the attack-specific validation of construction and of reconfiguration
(the overrides passed to `generate`) raises an invalid-configuration error exactly
when `eps_step > eps` (equality is accepted), the other check (`max_iter`) being
satisfied; and when the effective override pair is bad, `generate` returns that
error for every classifier/perturber/projection collaborator — i.e. before any of
them is consulted. -/
theorem bim_C5 {α : Type} [Inhabited α] [Add α] [Sub α] (norm0 : NormOrd)
    (eps es q : ℚ) (t r : Bool) (cfg : Config) (kw : Kwargs) (hq : 0 < q) :
    ((∃ e, bimInit norm0 eps es q t r = .error e) ↔ eps < es)
    ∧ (0 < (applyKwargs cfg kw).max_iter →
        ((∃ e, setParams cfg kw = .error e)
          ↔ (applyKwargs cfg kw).eps < (applyKwargs cfg kw).eps_step))
    ∧ ((applyKwargs cfg kw).eps < (applyKwargs cfg kw).eps_step →
        ∀ (C : Collab α) (x : List α), generateRun C cfg kw x = .error epsStepMsg) := by
  have h1 : ¬ q ≤ 0 := not_le.mpr hq
  refine ⟨?_, ?_, ?_⟩
  · by_cases h : eps < es
    · simp [bimInit, h]
    · simp [bimInit, h, h1]
  · intro hm
    by_cases h : (applyKwargs cfg kw).eps < (applyKwargs cfg kw).eps_step
    · simp [setParams, h]
    · simp [setParams, h, not_le.mpr hm]
  · intro h C x
    simp [generateRun, setParams, h]

/-- Claim C5 witness: equality `eps_step = eps` is accepted at construction; a bad
override pair passed to `generate` surfaces the error to the caller. -/
theorem bim_C5_wit :
    ((∃ e, bimInit .inf 3 3 1 false false = .error e) ↔ (3:ℚ) < 3)
    ∧ (0 < (applyKwargs cfgA { eps_step := some 5 }).max_iter →
        ((∃ e, setParams cfgA { eps_step := some 5 } = .error e)
          ↔ (applyKwargs cfgA { eps_step := some 5 }).eps
              < (applyKwargs cfgA { eps_step := some 5 }).eps_step))
    ∧ ((applyKwargs cfgA { eps_step := some 5 }).eps
          < (applyKwargs cfgA { eps_step := some 5 }).eps_step →
        ∀ (C : Collab ℤ) (x : List ℤ),
          generateRun C cfgA { eps_step := some 5 } x = .error epsStepMsg) :=
  bim_C5 .inf 3 3 1 false false cfgA { eps_step := some 5 } (by norm_num)

/-- Claim C6: construction rejects `max_iter <= 0` (0 and negatives) with an
invalid-configuration error and, provided the `eps_step` check passes, accepts
exactly the values with `max_iter > 0`, storing the fractional value truncated to
its integer part. -/
theorem bim_C6 (norm0 : NormOrd) (eps es q : ℚ) (t r : Bool) :
    (q ≤ 0 → ∃ e, bimInit norm0 eps es q t r = .error e)
    ∧ (¬ eps < es → ((∃ e, bimInit norm0 eps es q t r = .error e) ↔ q ≤ 0))
    ∧ (¬ eps < es → 0 < q →
        bimInit norm0 eps es q t r
          = .ok { norm := norm0, eps := eps, eps_step := es, max_iter := pyInt q,
                  targeted := t, random_init := r }) := by
  refine ⟨?_, ?_, ?_⟩
  · intro hq
    by_cases h : eps < es
    · exact ⟨epsStepMsg, by simp [bimInit, h]⟩
    · exact ⟨maxIterMsg, by simp [bimInit, h, hq]⟩
  · intro h
    by_cases hq : q ≤ 0
    · simp [bimInit, h, hq]
    · simp [bimInit, h, hq]
  · intro h hq
    simp [bimInit, h, not_le.mpr hq]

/-- Claim C6 witness: `max_iter = -5` is rejected; `max_iter = 3.9` is accepted and
stored as 3. -/
theorem bim_C6_wit :
    (∃ e, bimInit .inf 3 1 (-5) false false = .error e)
    ∧ bimInit .inf 3 1 (mkRat 39 10) false false
      = .ok { norm := .inf, eps := 3, eps_step := 1, max_iter := 3,
              targeted := false, random_init := false } := by
  refine ⟨(bim_C6 .inf 3 1 (-5) false false).1 (by norm_num), ?_⟩
  have h := (bim_C6 .inf 3 1 (mkRat 39 10) false false).2.2 (by norm_num)
    (by norm_num [mkRat])
  exact h.trans (by decide)

/-- Claim C7: a targeted `generate` call with no labels supplied raises the
"target labels required" error (for every collaborator, i.e. before any
perturbation); an untargeted call with no labels queries the classifier exactly
once, on the full original batch, and one-hot encodes the arg-max; supplied labels
are used verbatim, with zero classifier queries during label resolution. -/
theorem bim_C7 {α : Type} [Inhabited α] [Add α] [Sub α] (C : Collab α)
    (cfg cfg' : Config) (kw : Kwargs) (x : List α) :
    (setParams cfg kw = .ok cfg' → cfg'.targeted = true → kw.y = none →
        generateRun C cfg kw x = .error targetsMsg)
    ∧ resolveTargets C.predict false x none
        = .ok ((x.map C.predict).map oneHotRow, [x])
    ∧ (∀ ts : List (List ℚ),
        resolveTargets C.predict cfg.targeted x (some ts) = .ok (ts, [])) := by
  refine ⟨?_, rfl, fun ts => rfl⟩
  intro hsp ht hy
  simp [generateRun, hsp, resolveTargets, hy, ht]

/-- Claim C7 witness: a targeted configuration with no labels errors out of
`generate`; the untargeted no-label resolution logs exactly one query on the full
batch; supplied labels resolve with no query. -/
theorem bim_C7_wit :
    (setParams { cfgA with targeted := true } noKw = .ok { cfgA with targeted := true } →
        { cfgA with targeted := true }.targeted = true → noKw.y = none →
        generateRun (constCollab [0, 1]) { cfgA with targeted := true } noKw [(0:ℤ)]
          = .error targetsMsg)
    ∧ resolveTargets (constCollab [0, 1]).predict false [(0:ℤ)] none
        = .ok (([(0:ℤ)].map (constCollab [0, 1]).predict).map oneHotRow, [[(0:ℤ)]])
    ∧ (∀ ts : List (List ℚ),
        resolveTargets (constCollab [0, 1]).predict { cfgA with targeted := true }.targeted
          [(0:ℤ)] (some ts) = .ok (ts, [])) :=
  bim_C7 (constCollab [0, 1]) { cfgA with targeted := true }
    { cfgA with targeted := true } noKw [(0:ℤ)]

/-- Claim C8: at the store level, `generate` never mutates the caller's input array
and returns a reference distinct from it — the final store holds the original value
at the caller's reference, and the returned reference is the freshly allocated
copy. -/
theorem bim_C8 {α : Type} [Inhabited α] [Add α] [Sub α] (C : Collab α) (cfg : Config)
    (kw : Kwargs) (st st' : List (List α)) (xr r : ℕ)
    (hx : xr < st.length)
    (hok : generateRef C cfg kw st xr = .ok (st', r)) :
    r ≠ xr ∧ hread st' xr = hread st xr := by
  cases hsp : setParams cfg kw with
  | error e =>
      simp only [generateRef, hsp] at hok
      exact absurd hok (by simp)
  | ok cfg' =>
      cases hres : resolveTargets C.predict cfg'.targeted (hread st xr) kw.y with
      | error e =>
          simp only [generateRef, hsp, hres] at hok
          exact absurd hok (by simp)
      | ok p =>
          obtain ⟨t0, l0⟩ := p
          simp only [generateRef, hsp, hres, halloc] at hok
          rw [Except.ok.injEq, Prod.mk.injEq] at hok
          obtain ⟨hA, hB⟩ := hok
          subst hA
          subst hB
          refine ⟨ne_of_gt hx, ?_⟩
          rw [bimLoopRef_hread_other C cfg' t0 (t0.map argmax) xr st.length
            (ne_of_gt hx) (pyNat cfg'.max_iter) (st ++ [hread st xr])
            (List.range (hread st xr).length)]
          simp only [hread]
          exact getD_append_left st [st.getD xr []] xr [] hx

/-- Claim C8 witness: a concrete one-sample run; the caller's array (reference 0)
still holds its original value in the final store, and the result lives at the
fresh reference 1. -/
theorem bim_C8_wit :
    (1 : ℕ) ≠ 0 ∧ hread [[(5:ℤ)], [6]] 0 = hread [[(5:ℤ)]] 0 :=
  bim_C8 (constCollab [0, 1]) cfgA noKw [[(5:ℤ)]] [[(5:ℤ)], [6]] 0 1 (by decide)
    (by decide)

/-- Claim C9: once a sample index is outside the active set, its entry in the
adversarial batch is never written in any later iteration — the rest of the loop
leaves its value unchanged, the index never re-enters the active set, and the
batch keeps its length (index `i` keeps referring to sample `i`). -/
theorem bim_C9 {α : Type} [Inhabited α] [Add α] [Sub α] (C : Collab α) (cfg : Config)
    (x : List α) (targets : List (List ℚ)) (tlabels : List ℕ) (fuel : ℕ)
    (adv : List α) (active : List ℕ) (i : ℕ) (d : α) (h : i ∉ active) :
    (bimLoop C cfg x targets tlabels fuel adv active).1.getD i d = adv.getD i d
    ∧ i ∉ (bimLoop C cfg x targets tlabels fuel adv active).2
    ∧ (bimLoop C cfg x targets tlabels fuel adv active).1.length = adv.length := by
  obtain ⟨h1, h2⟩ := bimLoop_frozen C cfg x targets tlabels fuel adv active i d h
  exact ⟨h1, h2, bimLoop_fst_length C cfg x targets tlabels fuel adv active⟩

/-- Claim C9 witness: with index 1 already out of the active set, two further
iterations leave entry 1 of the batch untouched. -/
theorem bim_C9_wit :
    (1 ∉ [0])
    ∧ ((bimLoop (constCollab [0, 1]) cfgA [(0:ℤ), 0] [[(1:ℚ), 0], [(1:ℚ), 0]] [0, 0]
          2 [(0:ℤ), 7] [0]).1.getD 1 0 = [(0:ℤ), 7].getD 1 0
        ∧ 1 ∉ (bimLoop (constCollab [0, 1]) cfgA [(0:ℤ), 0] [[(1:ℚ), 0], [(1:ℚ), 0]]
            [0, 0] 2 [(0:ℤ), 7] [0]).2
        ∧ (bimLoop (constCollab [0, 1]) cfgA [(0:ℤ), 0] [[(1:ℚ), 0], [(1:ℚ), 0]]
            [0, 0] 2 [(0:ℤ), 7] [0]).1.length = [(0:ℤ), 7].length) :=
  ⟨by decide, bim_C9 (constCollab [0, 1]) cfgA [(0:ℤ), 0] [[(1:ℚ), 0], [(1:ℚ), 0]]
    [0, 0] 2 [(0:ℤ), 7] [0] 1 0 (by decide)⟩

/-- Claim C10 counterexample: constructing with `max_iter = 1/2` succeeds and stores
0, but the subsequent `generate` call does NOT execute zero iterations and return an
unmodified copy — its `set_params` re-validation raises the `max_iter` error. -/
theorem bim_C10_cex :
    bimInit .inf 3 1 (mkRat 1 2) false false = .ok (mkConfig .inf 3 1 0 false false)
    ∧ generateRun (constCollab [0, 1]) (mkConfig .inf 3 1 0 false false) noKw [(0:ℤ)]
      = .error maxIterMsg
    ∧ generateRun (constCollab [0, 1]) (mkConfig .inf 3 1 0 false false) noKw [(0:ℤ)]
      ≠ .ok ([(0:ℤ)], List.range 1) := by
  decide

/-- Claim C10 (amended): for every fractional `max_iter` strictly between 0 and 1,
construction succeeds (the value passes the `max_iter <= 0` check) and the stored
iteration count truncates to 0, but a subsequent `generate` call raises the
invalid-configuration `max_iter` error from its `set_params` re-validation, for
every collaborator and input batch, instead of running the loop. -/
theorem bim_C10 {α : Type} [Inhabited α] [Add α] [Sub α] (norm0 : NormOrd)
    (eps es q : ℚ) (t r : Bool) (h0 : 0 < q) (h1 : q < 1) (h2 : ¬ eps < es) :
    bimInit norm0 eps es q t r = .ok (mkConfig norm0 eps es 0 t r)
    ∧ ∀ (C : Collab α) (x : List α),
        generateRun C (mkConfig norm0 eps es 0 t r) noKw x = .error maxIterMsg := by
  have hz := pyInt_eq_zero_of_lt_one q h0 h1
  constructor
  · simp [bimInit, mkConfig, h2, not_le.mpr h0, hz]
  · intro C x
    simp [generateRun, setParams, applyKwargs, mkConfig, noKw, h2]

/-- Claim C10 witness: the amended behaviour at the concrete fraction 1/2. -/
theorem bim_C10_wit :
    bimInit .one 5 2 (mkRat 1 2) true false = .ok (mkConfig .one 5 2 0 true false)
    ∧ generateRun (constCollab [0, 1]) (mkConfig .one 5 2 0 true false) noKw [(0:ℤ)]
      = .error maxIterMsg := by
  have h := bim_C10 (α := ℤ) .one 5 2 (mkRat 1 2) true false (by decide) (by decide)
    (by norm_num)
  exact ⟨h.1, h.2 (constCollab [0, 1]) [(0:ℤ)]⟩

end ART
